import Mathlib

/-!
Shallow embedding of
`tf_agents/bandits/agents/examples/v2/train_eval_per_arm_stationary_linear.py`.

Tensors are modelled as nested lists of rationals (exact arithmetic in
place of float32).  A batched observation is a pair of a batch of global
feature vectors and a batch of per-arm feature matrices, mirroring the
dictionary observation with keys `global` and `per_arm`.
-/

namespace TrainEvalPerArm

/-- The key `bandit_spec_utils.GLOBAL_FEATURE_KEY`. -/
def GLOBAL_FEATURE_KEY : String := "global"

/-- The key `bandit_spec_utils.PER_ARM_FEATURE_KEY`. -/
def PER_ARM_FEATURE_KEY : String := "per_arm"

/-- The constant `HIDDEN_PARAM = [0, 1, 2, 3, 4, 5, 6, 7, 8]`. -/
def HIDDEN_PARAM : List ℚ := [0, 1, 2, 3, 4, 5, 6, 7, 8]

/-- Dot product of two vectors, as computed by `np.dot` / the row-wise
step of `tf.linalg.matvec` (pointwise product, then sum). -/
def dot (x y : List ℚ) : ℚ := (List.zipWith (fun a b => a * b) x y).sum

/-- The operation `tf.linalg.matvec m v`: one dot product per row of `m`. -/
def matvec (m : List (List ℚ)) (v : List ℚ) : List ℚ :=
  m.map (fun row => dot row v)

/-- A batched observation: `global` holds one global feature vector per
batch element, `perArm` one (arms × arm-dim) feature matrix per batch
element. -/
structure Observation where
  global : List (List ℚ)
  perArm : List (List (List ℚ))

/-- The helper `_all_rewards(observation, hidden_param)`: for each batch element,
tile the global feature vector over the arms (`tf.tile` of the
`expand_dims`-ed global observation, `num_actions` copies), concatenate
with the per-arm rows along the last axis (`tf.concat`), and take the
matrix-vector product with the hidden parameter (`tf.linalg.matvec`). -/
def all_rewards (observation : Observation) (hidden_param : List ℚ) :
    List (List ℚ) :=
  List.zipWith
    (fun global_obs per_arm_obs =>
      let num_actions := per_arm_obs.length
      let tiled_global := List.replicate num_actions global_obs
      let concatenated :=
        List.zipWith (fun tg row => tg ++ row) tiled_global per_arm_obs
      matvec concatenated hidden_param)
    observation.global observation.perArm

/-- The reduction `tf.reduce_max(·, axis=1)` applied to one row: maximum of a
nonempty list (the `[]` case is out of the valid domain). -/
def reduceMax : List ℚ → ℚ
  | [] => 0
  | [x] => x
  | x :: y :: xs => max x (reduceMax (y :: xs))

/-- The reduction `tf.argmax(·, axis=1)` applied to one row: index of the first
occurrence of the maximum (ties broken by lowest index, as in the
numpy/TF argmax kernels). -/
def argmax : List ℚ → Nat
  | [] => 0
  | [_] => 0
  | x :: y :: xs => if reduceMax (y :: xs) ≤ x then 0 else argmax (y :: xs) + 1

/-- The function `optimal_reward(observation, hidden_param)`:
`tf.reduce_max(_all_rewards(...), axis=1)`. -/
def optimal_reward (observation : Observation) (hidden_param : List ℚ) :
    List ℚ :=
  (all_rewards observation hidden_param).map reduceMax

/-- The function `optimal_action(observation, hidden_param)`:
`tf.argmax(_all_rewards(...), axis=1, output_type=tf.int32)`. -/
def optimal_action (observation : Observation) (hidden_param : List ℚ) :
    List Nat :=
  (all_rewards observation hidden_param).map argmax

/-- The callback `functools.partial(optimal_reward, hidden_param=HIDDEN_PARAM)`. -/
def optimal_reward_fn (observation : Observation) : List ℚ :=
  optimal_reward observation HIDDEN_PARAM

/-- The callback `functools.partial(optimal_action, hidden_param=HIDDEN_PARAM)`. -/
def optimal_action_fn (observation : Observation) : List Nat :=
  optimal_action observation HIDDEN_PARAM

/-- The class `LinearNormalReward`: carries the fixed parameter vector `theta`. -/
structure LinearNormalReward where
  theta : List ℚ

/-- The deterministic location parameter `mu = np.dot(x, self.theta)`
computed by `LinearNormalReward.__call__`; the sampled reward is
`np.random.normal(mu, 1)`, whose mean is `mu` (a property of the
external sampler, so the mean is the part modelled here). -/
def LinearNormalReward.mu (r : LinearNormalReward) (x : List ℚ) : ℚ :=
  dot x r.theta

theorem reduceMax_cons_cons (x y : ℚ) (xs : List ℚ) :
    reduceMax (x :: y :: xs) = max x (reduceMax (y :: xs)) := rfl

theorem argmax_cons_cons (x y : ℚ) (xs : List ℚ) :
    argmax (x :: y :: xs) =
      if reduceMax (y :: xs) ≤ x then 0 else argmax (y :: xs) + 1 := rfl

theorem reduceMax_mem (x : ℚ) (xs : List ℚ) : reduceMax (x :: xs) ∈ x :: xs := by
  induction xs generalizing x with
  | nil => simp [reduceMax]
  | cons y ys ih =>
    rw [reduceMax_cons_cons]
    rcases le_total x (reduceMax (y :: ys)) with h | h
    · rw [max_eq_right h]
      exact List.mem_cons_of_mem x (ih y)
    · rw [max_eq_left h]
      exact List.mem_cons_self x _

theorem le_reduceMax (a x : ℚ) (xs : List ℚ) (hmem : a ∈ x :: xs) :
    a ≤ reduceMax (x :: xs) := by
  induction xs generalizing x with
  | nil =>
    rcases List.mem_singleton.mp hmem with rfl
    simp [reduceMax]
  | cons y ys ih =>
    rw [reduceMax_cons_cons]
    rcases List.mem_cons.mp hmem with rfl | h2
    · exact le_max_left _ _
    · exact le_trans (ih y h2) (le_max_right _ _)

theorem argmax_lt_length (x : ℚ) (xs : List ℚ) :
    argmax (x :: xs) < (x :: xs).length := by
  induction xs generalizing x with
  | nil => simp [argmax]
  | cons y ys ih =>
    rw [argmax_cons_cons]
    by_cases h : reduceMax (y :: ys) ≤ x
    · simp [h]
    · simpa [h] using ih y

theorem getD_argmax (x : ℚ) (xs : List ℚ) :
    (x :: xs).getD (argmax (x :: xs)) 0 = reduceMax (x :: xs) := by
  induction xs generalizing x with
  | nil => simp [argmax, reduceMax]
  | cons y ys ih =>
    rw [argmax_cons_cons, reduceMax_cons_cons]
    by_cases h : reduceMax (y :: ys) ≤ x
    · simp [h, max_eq_left h]
    · have h' : x ≤ reduceMax (y :: ys) := le_of_lt (lt_of_not_le h)
      simp only [h, if_false, List.getD_cons_succ, max_eq_right h']
      exact ih y

theorem getD_lt_of_lt_argmax (x : ℚ) (xs : List ℚ) (j : Nat)
    (hj : j < argmax (x :: xs)) :
    (x :: xs).getD j 0 < reduceMax (x :: xs) := by
  induction xs generalizing x j with
  | nil => simp [argmax] at hj
  | cons y ys ih =>
    rw [argmax_cons_cons] at hj
    rw [reduceMax_cons_cons]
    by_cases h : reduceMax (y :: ys) ≤ x
    · simp [h] at hj
    · have hx : x < reduceMax (y :: ys) := lt_of_not_le h
      simp only [h, if_false] at hj
      match j with
      | 0 => simpa [max_eq_right (le_of_lt hx)] using hx
      | Nat.succ k =>
        have hk : k < argmax (y :: ys) := Nat.lt_of_succ_lt_succ hj
        calc (y :: ys).getD k 0 < reduceMax (y :: ys) := ih y k hk
          _ ≤ max x (reduceMax (y :: ys)) := le_max_right _ _

theorem getD_zipWith {α β γ : Type} (f : α → β → γ) (l1 : List α)
    (l2 : List β) (n : Nat) (h1 : n < l1.length) (h2 : n < l2.length)
    (d1 : α) (d2 : β) (d3 : γ) :
    (List.zipWith f l1 l2).getD n d3 = f (l1.getD n d1) (l2.getD n d2) := by
  induction l1 generalizing l2 n with
  | nil => simp at h1
  | cons a as ih =>
    cases l2 with
    | nil => simp at h2
    | cons c cs =>
      cases n with
      | zero => rfl
      | succ k =>
        simp only [List.zipWith_cons_cons, List.getD_cons_succ]
        exact ih cs k (Nat.lt_of_succ_lt_succ h1) (Nat.lt_of_succ_lt_succ h2)

theorem getD_map {α β : Type} (f : α → β) (l : List α) (n : Nat)
    (hn : n < l.length) (d1 : α) (d2 : β) :
    (l.map f).getD n d2 = f (l.getD n d1) := by
  induction l generalizing n with
  | nil => simp at hn
  | cons a as ih =>
    cases n with
    | zero => rfl
    | succ k =>
      simp only [List.map_cons, List.getD_cons_succ]
      exact ih k (Nat.lt_of_succ_lt_succ hn)

theorem zipWith_replicate_append (g : List ℚ) (A : List (List ℚ)) :
    List.zipWith (fun tg row => tg ++ row) (List.replicate A.length g) A =
      A.map (fun row => g ++ row) := by
  induction A with
  | nil => rfl
  | cons a as ih => simp only [List.length_cons, List.replicate_succ,
      List.zipWith_cons_cons, List.map_cons, ih]

/-- The batch row of `_all_rewards`: one dot product per arm of the
concatenation of the global features of the batch element with the arm features. -/
theorem all_rewards_getD (obs : Observation) (hp : List ℚ) (b : Nat)
    (hb : b < obs.global.length) (hb2 : b < obs.perArm.length) :
    (all_rewards obs hp).getD b [] =
      (obs.perArm.getD b []).map
        (fun row => dot (obs.global.getD b [] ++ row) hp) := by
  unfold all_rewards
  rw [getD_zipWith _ obs.global obs.perArm b hb hb2 [] []]
  simp only [zipWith_replicate_append, matvec, List.map_map]
  rfl

theorem optimal_reward_getD (obs : Observation) (hp : List ℚ) (b : Nat)
    (hb : b < obs.global.length) (hb2 : b < obs.perArm.length) :
    (optimal_reward obs hp).getD b 0 =
      reduceMax ((all_rewards obs hp).getD b []) := by
  unfold optimal_reward
  refine getD_map reduceMax _ b ?_ [] 0
  unfold all_rewards
  rw [List.length_zipWith]
  exact lt_min hb hb2

theorem optimal_action_getD (obs : Observation) (hp : List ℚ) (b : Nat)
    (hb : b < obs.global.length) (hb2 : b < obs.perArm.length) :
    (optimal_action obs hp).getD b 0 =
      argmax ((all_rewards obs hp).getD b []) := by
  unfold optimal_action
  refine getD_map argmax _ b ?_ [] 0
  unfold all_rewards
  rw [List.length_zipWith]
  exact lt_min hb hb2

/-- C1: for every observation, every batch element `b`, every arm `i`, and
every hidden parameter vector whose length is `len(g[b]) + len(a_i)`, the
per-arm reward computed by `_all_rewards` is the dot product of the
concatenation of the global features with the features of that arm against the
hidden parameter vector. -/
theorem spec_C1 (obs : Observation) (hp : List ℚ) (b i : Nat)
    (hbatch : obs.global.length = obs.perArm.length)
    (hb : b < obs.global.length)
    (hi : i < (obs.perArm.getD b []).length)
    (_hlen : hp.length =
      (obs.global.getD b []).length + ((obs.perArm.getD b []).getD i []).length) :
    ((all_rewards obs hp).getD b []).getD i 0 =
      dot (obs.global.getD b [] ++ (obs.perArm.getD b []).getD i []) hp := by
  rw [all_rewards_getD obs hp b hb (hbatch ▸ hb)]
  exact getD_map _ _ i hi [] 0

theorem spec_C1_witness :
    ((all_rewards ⟨[[1, 0]], [[[1, 0], [0, 1]]]⟩ [1, 1, 1, 1]).getD 0 []).getD 1 0 =
      dot ([(1 : ℚ), 0] ++ [0, 1]) [1, 1, 1, 1] :=
  spec_C1 ⟨[[1, 0]], [[[1, 0], [0, 1]]]⟩ [1, 1, 1, 1] 0 1
    (by decide) (by decide) (by decide) (by decide)

/-- C2: for every valid observation and hidden parameter vector,
`optimal_reward` returns, per batch element, the maximum of the per-arm
rewards computed by `_all_rewards`: it is one of the per-arm rewards and
no per-arm reward exceeds it. -/
theorem spec_C2 (obs : Observation) (hp : List ℚ) (b : Nat)
    (hbatch : obs.global.length = obs.perArm.length)
    (hb : b < obs.global.length)
    (hne : (all_rewards obs hp).getD b [] ≠ []) :
    (optimal_reward obs hp).getD b 0 ∈ (all_rewards obs hp).getD b [] ∧
    ∀ r ∈ (all_rewards obs hp).getD b [], r ≤ (optimal_reward obs hp).getD b 0 := by
  obtain ⟨x, xs, hx⟩ := List.exists_cons_of_ne_nil hne
  rw [optimal_reward_getD obs hp b hb (hbatch ▸ hb), hx]
  exact ⟨reduceMax_mem x xs, fun r hr => le_reduceMax r x xs hr⟩

theorem spec_C2_witness :
    (optimal_reward ⟨[[1, 0]], [[[1, 0], [0, 1]]]⟩ [1, 1, 2, 1]).getD 0 0 ∈
      (all_rewards ⟨[[1, 0]], [[[1, 0], [0, 1]]]⟩ [1, 1, 2, 1]).getD 0 [] :=
  (spec_C2 ⟨[[1, 0]], [[[1, 0], [0, 1]]]⟩ [1, 1, 2, 1] 0
    (by decide) (by decide) (by decide)).1

/-- C3: `optimal_action` returns, per batch element, an in-range arm index
whose per-arm reward is the row maximum, and every arm before it has a
strictly smaller reward (so ties go to the lowest index); moreover, in
the tie scenario with batch size 1, global vector `[1,0]`, arm matrix
`[[1,0],[0,1]]` and hidden parameter `[1,1,1,1]`, it returns `0` while
`optimal_reward` returns `2`. -/
theorem spec_C3 :
    (∀ (obs : Observation) (hp : List ℚ) (b : Nat),
      obs.global.length = obs.perArm.length →
      b < obs.global.length →
      (all_rewards obs hp).getD b [] ≠ [] →
      (optimal_action obs hp).getD b 0 < ((all_rewards obs hp).getD b []).length ∧
      ((all_rewards obs hp).getD b []).getD ((optimal_action obs hp).getD b 0) 0 =
        reduceMax ((all_rewards obs hp).getD b []) ∧
      ∀ j < (optimal_action obs hp).getD b 0,
        ((all_rewards obs hp).getD b []).getD j 0 <
          ((all_rewards obs hp).getD b []).getD ((optimal_action obs hp).getD b 0) 0) ∧
    optimal_action ⟨[[1, 0]], [[[1, 0], [0, 1]]]⟩ [1, 1, 1, 1] = [0] ∧
    optimal_reward ⟨[[1, 0]], [[[1, 0], [0, 1]]]⟩ [1, 1, 1, 1] = [2] := by
  refine ⟨?_, by norm_num [optimal_action, all_rewards, matvec, dot, argmax,
    reduceMax], by norm_num [optimal_reward, all_rewards, matvec, dot, reduceMax]⟩
  intro obs hp b hbatch hb hne
  obtain ⟨x, xs, hx⟩ := List.exists_cons_of_ne_nil hne
  rw [optimal_action_getD obs hp b hb (hbatch ▸ hb), hx]
  refine ⟨argmax_lt_length x xs, getD_argmax x xs, ?_⟩
  intro j hj
  rw [getD_argmax x xs]
  exact getD_lt_of_lt_argmax x xs j hj

/-- C4: the outputs of `optimal_reward` and `optimal_action` are
one-dimensional lists whose (batch) length equals the batch dimension of
both input feature arrays. -/
theorem spec_C4 (obs : Observation) (hp : List ℚ)
    (hbatch : obs.global.length = obs.perArm.length) :
    (optimal_reward obs hp).length = obs.global.length ∧
    (optimal_action obs hp).length = obs.global.length ∧
    (optimal_reward obs hp).length = obs.perArm.length ∧
    (optimal_action obs hp).length = obs.perArm.length := by
  simp [optimal_reward, optimal_action, all_rewards, List.length_zipWith,
    hbatch, Nat.min_self]

theorem spec_C4_witness :
    (optimal_reward ⟨[[1, 0]], [[[1, 0], [0, 1]]]⟩ [1, 1, 1, 1]).length = 1 :=
  (spec_C4 ⟨[[1, 0]], [[[1, 0], [0, 1]]]⟩ [1, 1, 1, 1] (by decide)).1

/-- C7: `optimal_reward` and `optimal_action` are deterministic functions
of the observation and hidden parameter alone: equal inputs give equal
outputs (the embedding is pure, so no other state is read or written). -/
theorem spec_C7 (obs1 obs2 : Observation) (hp1 hp2 : List ℚ)
    (hobs : obs1 = obs2) (hhp : hp1 = hp2) :
    optimal_reward obs1 hp1 = optimal_reward obs2 hp2 ∧
    optimal_action obs1 hp1 = optimal_action obs2 hp2 := by
  subst hobs
  subst hhp
  exact ⟨rfl, rfl⟩

theorem spec_C7_witness :
    optimal_reward ⟨[[1, 0]], [[[1, 0], [0, 1]]]⟩ [1, 1, 2, 1] =
      optimal_reward ⟨[[1, 0]], [[[1, 0], [0, 1]]]⟩ [1, 1, 2, 1] :=
  (spec_C7 ⟨[[1, 0]], [[[1, 0], [0, 1]]]⟩ ⟨[[1, 0]], [[[1, 0], [0, 1]]]⟩
    [1, 1, 2, 1] [1, 1, 2, 1] rfl rfl).1

/-- C10: `optimal_reward` and `optimal_action` are mutually consistent:
the per-arm reward at the index returned by `optimal_action` equals the
value returned by `optimal_reward`, per batch element. -/
theorem spec_C10 (obs : Observation) (hp : List ℚ) (b : Nat)
    (hbatch : obs.global.length = obs.perArm.length)
    (hb : b < obs.global.length)
    (hne : (all_rewards obs hp).getD b [] ≠ []) :
    ((all_rewards obs hp).getD b []).getD ((optimal_action obs hp).getD b 0) 0 =
      (optimal_reward obs hp).getD b 0 := by
  obtain ⟨x, xs, hx⟩ := List.exists_cons_of_ne_nil hne
  rw [optimal_action_getD obs hp b hb (hbatch ▸ hb),
    optimal_reward_getD obs hp b hb (hbatch ▸ hb), hx]
  exact getD_argmax x xs

theorem spec_C10_witness :
    ((all_rewards ⟨[[2, 1]], [[[1, 0], [0, 1]]]⟩ [1, 1, 2, 1]).getD 0 []).getD
        ((optimal_action ⟨[[2, 1]], [[[1, 0], [0, 1]]]⟩ [1, 1, 2, 1]).getD 0 0) 0 =
      (optimal_reward ⟨[[2, 1]], [[[1, 0], [0, 1]]]⟩ [1, 1, 2, 1]).getD 0 0 :=
  spec_C10 ⟨[[2, 1]], [[[1, 0], [0, 1]]]⟩ [1, 1, 2, 1] 0
    (by decide) (by decide) (by decide)

theorem spec_C3_witness :
    (optimal_action ⟨[[1, 0]], [[[1, 0], [0, 1]]]⟩ [3, 1, 1, 1]).getD 0 0 <
      ((all_rewards ⟨[[1, 0]], [[[1, 0], [0, 1]]]⟩ [3, 1, 1, 1]).getD 0 []).length :=
  (spec_C3.1 ⟨[[1, 0]], [[[1, 0], [0, 1]]]⟩ [3, 1, 1, 1] 0
    (by decide) (by decide) (by decide)).1

/-- A collected trajectory, as far as this script inspects one: an
observation dictionary (association list from feature keys to feature
values) together with all its remaining fields, kept abstract. -/
structure Trajectory (υ ρ : Type) where
  observation : List (String × υ)
  rest : ρ

/-- The transformation `drop_arm_feature_fn(traj)`: copy the trajectory and delete the
per-arm feature key from its observation dictionary; every other field
is taken over unchanged. -/
def drop_arm_feature_fn {υ ρ : Type} (traj : Trajectory υ ρ) :
    Trajectory υ ρ :=
  { observation :=
      traj.observation.filter (fun kv => kv.1 != PER_ARM_FEATURE_KEY),
    rest := traj.rest }

/-- The `training_data_spec_transformation_fn` the script passes to the
agent and the trainer: `drop_arm_feature_fn` when `drop_arm_obs` is set,
else `None`. -/
def training_data_spec_transformation_fn (υ ρ : Type) (drop_arm_obs : Bool) :
    Option (Trajectory υ ρ → Trajectory υ ρ) :=
  if drop_arm_obs then some drop_arm_feature_fn else none

theorem lookup_filter_self {υ : Type} (l : List (String × υ)) (key : String) :
    (l.filter (fun kv => kv.1 != key)).lookup key = none := by
  induction l with
  | nil => rfl
  | cons kv l ih =>
    obtain ⟨k1, v1⟩ := kv
    by_cases h : k1 = key
    · rw [List.filter_cons_of_neg (by simp [h])]
      exact ih
    · rw [List.filter_cons_of_pos (by simp [h]), List.lookup_cons]
      have hb : (key == k1) = false :=
        beq_eq_false_iff_ne.mpr (fun hx => h hx.symm)
      rw [hb]
      exact ih

theorem lookup_filter_ne {υ : Type} (l : List (String × υ)) (k key : String)
    (hk : k ≠ key) :
    (l.filter (fun kv => kv.1 != key)).lookup k = l.lookup k := by
  induction l with
  | nil => rfl
  | cons kv l ih =>
    obtain ⟨k1, v1⟩ := kv
    by_cases h : k1 = key
    · have hb : (k == k1) = false :=
        beq_eq_false_iff_ne.mpr (fun hx => hk (hx.trans h))
      rw [List.filter_cons_of_neg (by simp [h]), List.lookup_cons, hb]
      exact ih
    · rw [List.filter_cons_of_pos (by simp [h]), List.lookup_cons,
        List.lookup_cons]
      cases hkv : (k == k1) with
      | true => rfl
      | false => exact ih

/-- C5: when `drop_arm_obs` is true the transformation passed to the
agent/trainer is `drop_arm_feature_fn`, which removes the per-arm
feature key from the observation while preserving every other
observation key and every other trajectory field; when `drop_arm_obs`
is false no transformation is applied (`None`). -/
theorem spec_C5 (υ ρ : Type) (drop_arm_obs : Bool) :
    (drop_arm_obs = true →
      training_data_spec_transformation_fn υ ρ drop_arm_obs =
        some drop_arm_feature_fn ∧
      ∀ traj : Trajectory υ ρ,
        (drop_arm_feature_fn traj).observation.lookup PER_ARM_FEATURE_KEY =
            none ∧
        (∀ k, k ≠ PER_ARM_FEATURE_KEY →
          (drop_arm_feature_fn traj).observation.lookup k =
            traj.observation.lookup k) ∧
        (drop_arm_feature_fn traj).rest = traj.rest) ∧
    (drop_arm_obs = false →
      training_data_spec_transformation_fn υ ρ drop_arm_obs = none) := by
  constructor
  · intro hdrop
    subst hdrop
    refine ⟨rfl, fun traj => ⟨?_, fun k hk => ?_, rfl⟩⟩
    · exact lookup_filter_self traj.observation PER_ARM_FEATURE_KEY
    · exact lookup_filter_ne traj.observation k PER_ARM_FEATURE_KEY hk
  · intro hdrop
    subst hdrop
    rfl

theorem spec_C5_witness :
    training_data_spec_transformation_fn ℚ Nat true =
        some drop_arm_feature_fn ∧
      training_data_spec_transformation_fn ℚ Nat false = none :=
  ⟨((spec_C5 ℚ Nat true).1 rfl).1, (spec_C5 ℚ Nat false).2 rfl⟩

/-- The allowed values of the `network` flag (`flags.DEFINE_enum`). -/
def networkFlagValues : List String := ["commontower", "dotproduct"]

/-- The default value of the `network` flag. -/
def networkFlagDefault : String := "commontower"

/-- The `flags.DEFINE_enum` semantics for the `network` flag: an absent flag
takes the default; a supplied value is accepted only when it is one of
the enum values. -/
def parseNetworkFlag (supplied : Option String) : Option String :=
  match supplied with
  | none => some networkFlagDefault
  | some v => if v ∈ networkFlagValues then some v else none

/-- The two reward networks the script can build, carrying the layer
parameters used at the construction sites in `main`. -/
inductive Network
  | commonTowerNetwork (globalLayers armLayers commonLayers : List Nat)
  | dotProductNetwork (globalLayers armLayers : List Nat)

/-- Network selection in `main`: `commontower` builds the common-tower
network with layer tuples `(4,3)`, `(3,4)`, `(4,2)`; `dotproduct` builds
the dot-product network with `(4,3,6)`, `(3,4,6)`; any other value
leaves the network unconstructed (unreachable after flag validation). -/
def selectNetwork (flag : String) : Option Network :=
  if flag = "commontower" then
    some (Network.commonTowerNetwork [4, 3] [3, 4] [4, 2])
  else if flag = "dotproduct" then
    some (Network.dotProductNetwork [4, 3, 6] [3, 4, 6])
  else none

/-- The constant `EPSILON = 0.01`. -/
def EPSILON : ℚ := 1 / 100

/-- The agent configuration assembled in `main`, keeping the fields the
claims inspect: the chosen network is passed as `reward_network`. -/
structure AgentConfig where
  reward_network : Network
  epsilon : ℚ
  accepts_per_arm_features : Bool

/-- The call `NeuralEpsilonGreedyAgent(..., reward_network=network, ...)`. -/
def buildAgent (net : Network) : AgentConfig :=
  { reward_network := net, epsilon := EPSILON, accepts_per_arm_features := true }

/-- Network selection in `main` followed by agent construction. -/
def mainAgent (flag : String) : Option AgentConfig :=
  (selectNetwork flag).map buildAgent

/-- C6: the `network` flag accepts exactly `commontower` and
`dotproduct` and defaults to `commontower`; `commontower` selects the
common-tower network, `dotproduct` the dot-product network, and the
selected network is the one stored as the reward network of the agent. -/
theorem spec_C6 :
    (∀ v : String,
      (parseNetworkFlag (some v)).isSome = true ↔
        v = "commontower" ∨ v = "dotproduct") ∧
    parseNetworkFlag none = some "commontower" ∧
    selectNetwork "commontower" =
      some (Network.commonTowerNetwork [4, 3] [3, 4] [4, 2]) ∧
    selectNetwork "dotproduct" =
      some (Network.dotProductNetwork [4, 3, 6] [3, 4, 6]) ∧
    ∀ flag net, selectNetwork flag = some net →
      mainAgent flag = some (buildAgent net) ∧
      (buildAgent net).reward_network = net := by
  refine ⟨?_, rfl, rfl, rfl, ?_⟩
  · intro v
    constructor
    · intro hv
      by_contra hne
      push_neg at hne
      simp [parseNetworkFlag, networkFlagValues, hne.1, hne.2] at hv
    · intro hv
      rcases hv with rfl | rfl <;> rfl
  · intro flag net h
    simp [mainAgent, h, buildAgent]

theorem spec_C6_witness :
    mainAgent "dotproduct" =
      some (buildAgent (Network.dotProductNetwork [4, 3, 6] [3, 4, 6])) :=
  ((spec_C6.2.2.2.2) "dotproduct"
    (Network.dotProductNetwork [4, 3, 6] [3, 4, 6]) rfl).1

/-- The sequential stages of `main`, each a call into external framework
code that may fail: flag handling, environment construction, network
construction, agent construction, metric construction, and the final
call into the trainer. A failing stage is modelled as `Except.error`. -/
structure MainStages (Flags Env Net Agent Metrics Err : Type) where
  parse_flags : Except Err Flags
  build_environment : Flags → Except Err Env
  build_network : Flags → Env → Except Err Net
  build_agent : Net → Except Err Agent
  build_metrics : Flags → Except Err Metrics
  train : Agent → Env → Metrics → Except Err Unit

/-- The body of `main` as the script writes it: a straight-line sequence of stage
calls with no try/except anywhere, so the error of a failing stage is
returned as is. -/
def runMain {Flags Env Net Agent Metrics Err : Type}
    (s : MainStages Flags Env Net Agent Metrics Err) : Except Err Unit := do
  let fl ← s.parse_flags
  let env ← s.build_environment fl
  let net ← s.build_network fl env
  let agent ← s.build_agent net
  let metrics ← s.build_metrics fl
  s.train agent env metrics

/-- C8: the script defines no local error handling: whichever stage of
`main` fails, its error surfaces out of `main` unchanged, with no
catching, translation, or recovery. -/
theorem spec_C8 {Flags Env Net Agent Metrics Err : Type}
    (s : MainStages Flags Env Net Agent Metrics Err) (e : Err) :
    (s.parse_flags = Except.error e → runMain s = Except.error e) ∧
    (∀ fl, s.parse_flags = Except.ok fl →
      s.build_environment fl = Except.error e → runMain s = Except.error e) ∧
    (∀ fl env, s.parse_flags = Except.ok fl →
      s.build_environment fl = Except.ok env →
      s.build_network fl env = Except.error e → runMain s = Except.error e) ∧
    (∀ fl env net, s.parse_flags = Except.ok fl →
      s.build_environment fl = Except.ok env →
      s.build_network fl env = Except.ok net →
      s.build_agent net = Except.error e → runMain s = Except.error e) ∧
    (∀ fl env net agent, s.parse_flags = Except.ok fl →
      s.build_environment fl = Except.ok env →
      s.build_network fl env = Except.ok net →
      s.build_agent net = Except.ok agent →
      s.build_metrics fl = Except.error e → runMain s = Except.error e) ∧
    (∀ fl env net agent metrics, s.parse_flags = Except.ok fl →
      s.build_environment fl = Except.ok env →
      s.build_network fl env = Except.ok net →
      s.build_agent net = Except.ok agent →
      s.build_metrics fl = Except.ok metrics →
      s.train agent env metrics = Except.error e →
      runMain s = Except.error e) := by
  refine ⟨fun h1 => ?_, fun fl h1 h2 => ?_, fun fl env h1 h2 h3 => ?_,
    fun fl env net h1 h2 h3 h4 => ?_,
    fun fl env net agent h1 h2 h3 h4 h5 => ?_,
    fun fl env net agent metrics h1 h2 h3 h4 h5 h6 => ?_⟩ <;>
  simp_all [runMain, Bind.bind, Except.bind]

theorem spec_C8_witness :
    runMain (⟨Except.error "bad flag", fun _ => Except.ok 0,
        fun _ _ => Except.ok 0, fun _ => Except.ok 0, fun _ => Except.ok 0,
        fun _ _ _ => Except.ok ()⟩ :
      MainStages Nat Nat Nat Nat Nat String) = Except.error "bad flag" :=
  (spec_C8 (⟨Except.error "bad flag", fun _ => Except.ok 0,
      fun _ _ => Except.ok 0, fun _ => Except.ok 0, fun _ => Except.ok 0,
      fun _ _ _ => Except.ok ()⟩ :
    MainStages Nat Nat Nat Nat Nat String) "bad flag").1 rfl

/-- C9: the reward function of the environment and the metric oracles are
built from the same `HIDDEN_PARAM`: the mean of the stochastic reward
`LinearNormalReward(HIDDEN_PARAM)` at `x = concat(g[b], A[b][i])` equals
the `_all_rewards` entry for arm `i`, and the metric callbacks are
exactly the oracle functions partially applied at `HIDDEN_PARAM`. -/
theorem spec_C9 (obs : Observation) (b i : Nat)
    (hbatch : obs.global.length = obs.perArm.length)
    (hb : b < obs.global.length)
    (hi : i < (obs.perArm.getD b []).length) :
    LinearNormalReward.mu ⟨HIDDEN_PARAM⟩
        (obs.global.getD b [] ++ (obs.perArm.getD b []).getD i []) =
      ((all_rewards obs HIDDEN_PARAM).getD b []).getD i 0 ∧
    optimal_reward_fn obs = optimal_reward obs HIDDEN_PARAM ∧
    optimal_action_fn obs = optimal_action obs HIDDEN_PARAM := by
  refine ⟨?_, rfl, rfl⟩
  rw [all_rewards_getD obs HIDDEN_PARAM b hb (hbatch ▸ hb),
    getD_map _ _ i hi [] 0]
  rfl

theorem spec_C9_witness :
    LinearNormalReward.mu ⟨HIDDEN_PARAM⟩
        (([[ (1 : ℚ), 2, 3, 4]].getD 0 []) ++
          (([[[ (1 : ℚ), 0, 0, 0, 0], [0, 1, 0, 0, 0]]].getD 0 []).getD 0 [])) =
      ((all_rewards ⟨[[1, 2, 3, 4]], [[[1, 0, 0, 0, 0], [0, 1, 0, 0, 0]]]⟩
          HIDDEN_PARAM).getD 0 []).getD 0 0 :=
  (spec_C9 ⟨[[1, 2, 3, 4]], [[[1, 0, 0, 0, 0], [0, 1, 0, 0, 0]]]⟩ 0 0
    (by decide) (by decide) (by decide)).1

end TrainEvalPerArm
